import Mathlib

/-!
# ChronoMerge PDF — verification of the Chronological Document Merge Engine

Shallow embedding of the merge engine implemented in `src/App.tsx`
(`addFiles`, `removeFile`, `mergeFiles`) together with the parts of the
`pdf-lib` API surface the component relies on (`PDFDocument.load`,
`embedJpg`, `embedPng`, `addPage`, `scaleToFit`, `drawImage`).

External byte-level behaviour of `pdf-lib` is abstracted: a raw byte
buffer is represented by the outcome each decoder would produce on it
(`RawBytes`).  Everything the React component itself computes — media
type checks, the timestamp sort, the merge loop, skip/abort decisions,
page layout arithmetic — is translated directly from the source.
-/

namespace ChronoMerge

/-- Abstraction of a raw byte buffer: the outcome of each `pdf-lib`
decoding entry point when applied to those bytes.  `pdfParse = some ps`
means `PDFDocument.load` succeeds and yields a document whose pages, in
internal order, are the abstract page contents `ps`; `none` means `load`
throws (malformed PDF).  Likewise `jpgDecode` / `pngDecode` give the
native pixel dimensions returned by `embedJpg` / `embedPng`, or `none`
when the embed call throws (undecodable image data). -/
structure RawBytes where
  pdfParse : Option (List Nat)
  jpgDecode : Option (ℚ × ℚ)
  pngDecode : Option (ℚ × ℚ)
deriving DecidableEq

/-- A browser `File` as the component observes it: its declared media
type string (`file.type`), its `lastModified` timestamp, and its bytes. -/
structure File where
  type : String
  lastModified : Int
  bytes : RawBytes
deriving DecidableEq

/-- The resolved kind stored in `FileWithMetadata.type`:
`pdf` or `image` in the source. -/
inductive FileKind where
  | pdf
  | image
deriving DecidableEq

/-- `FileWithMetadata` from `App.tsx`: the id generated at ingestion,
the underlying `File`, the resolved kind, and the timestamp copied from
`file.lastModified`.  (The `preview` object URL is UI-only state and is
not modelled.) -/
structure FileWithMetadata where
  id : Nat
  file : File
  type : FileKind
  timestamp : Int
deriving DecidableEq

/-- A page of the composite output document: either a page copied
verbatim from a source PDF (`copyPages` + `addPage`), or a newly created
page carrying one placed image (`addPage` + `drawImage`), recorded with
the placement rectangle. -/
inductive OutputPage where
  | copied (srcId : Nat) (content : Nat)
  | imagePage (srcId : Nat) (x y w h : ℚ)
deriving DecidableEq

/-- `listBegins p l` holds when `p` is an initial segment of `l`;
used to embed `String.startsWith` from the source. -/
def listBegins : List Char → List Char → Bool
  | [], _ => true
  | _ :: _, [] => false
  | c :: cs, d :: ds => c == d && listBegins cs ds

/-- JavaScript `p.startsWith(s)` on strings, as used in
the source check that the declared type starts with the image category. -/
def strBegins (p s : String) : Bool :=
  listBegins p.data s.data

/-- The filter in `addFiles`: a file is kept when its declared type is
`application/pdf` or starts with `image/`. -/
def validUpload (f : File) : Bool :=
  (f.type == "application/pdf") || strBegins ("image/") f.type

/-- The `map` step of `addFiles`: wrap an accepted file in
`FileWithMetadata`.  The randomly generated id from the source is
modelled as a caller-supplied natural number paired with the file. -/
def toMeta (idf : Nat × File) : FileWithMetadata :=
  { id := idf.1
    file := idf.2
    type := if idf.2.type == "application/pdf" then .pdf else .image
    timestamp := idf.2.lastModified }

/-- One step of the stable sort: insert `x` after every element whose
timestamp is strictly smaller, before the first element whose timestamp
is greater or equal. -/
def insertByTimestamp (x : FileWithMetadata) :
    List FileWithMetadata → List FileWithMetadata
  | [] => [x]
  | y :: ys =>
    if y.timestamp < x.timestamp then y :: insertByTimestamp x ys
    else x :: y :: ys

/-- JavaScript `arr.sort((a, b) => a.timestamp - b.timestamp)`:
a stable sort by ascending timestamp (`Array.prototype.sort` is
specified to be stable), modelled as stable insertion sort. -/
def sortByTimestamp : List FileWithMetadata → List FileWithMetadata
  | [] => []
  | x :: xs => insertByTimestamp x (sortByTimestamp xs)

/-- The error message set by `addFiles` when some input files were
rejected by the filter. -/
def skippedFilesMsg : String :=
  "Some files were skipped. Only PDF and Image files are supported."

/-- The single error message set by the `catch` block of `mergeFiles`. -/
def mergeFailedMsg : String :=
  "An error occurred while merging the files. Please ensure all files are valid."

/-- Default page width used by the `addPage()` call of `pdf-lib`: 612 points
(US Letter). -/
def pageWidth : ℚ := 612

/-- Default page height used by the `addPage()` call of `pdf-lib`: 792 points
(US Letter). -/
def pageHeight : ℚ := 792

/-- The `image.scaleToFit(fw, fh)` method of `pdf-lib` for an image of native size
`iw × ih`: uniform scale by `min (fw / iw) (fh / ih)`. -/
def scaleToFit (iw ih fw fh : ℚ) : ℚ × ℚ :=
  let scale := min (fw / iw) (fh / ih)
  (iw * scale, ih * scale)

/-- The image branch of the merge loop after a successful embed: create
a default-size page, scale the image to fit the page minus a 40-unit
total margin, and draw it at the centered position. -/
def imagePageFor (srcId : Nat) (iw ih : ℚ) : OutputPage :=
  let dims := scaleToFit iw ih (pageWidth - 40) (pageHeight - 40)
  .imagePage srcId ((pageWidth - dims.1) / 2) ((pageHeight - dims.2) / 2)
    dims.1 dims.2

/-- The body of the `for` loop in `mergeFiles`, for one item: the pages
it contributes to the composite document, or an error when a `pdf-lib`
call throws.  A `pdf` item copies every page of the loaded document in
internal order; an `image` item embeds via `embedJpg` for
`image/jpeg` / `image/jpg`, via `embedPng` for `image/png`, and is
skipped (`continue`) for every other image subtype. -/
def processItem (item : FileWithMetadata) : Except Unit (List OutputPage) :=
  match item.type with
  | .pdf =>
    match item.file.bytes.pdfParse with
    | some pages => .ok (pages.map (fun c => .copied item.id c))
    | none => .error ()
  | .image =>
    if item.file.type == "image/jpeg" || item.file.type == "image/jpg" then
      match item.file.bytes.jpgDecode with
      | some wh => .ok [imagePageFor item.id wh.1 wh.2]
      | none => .error ()
    else if item.file.type == "image/png" then
      match item.file.bytes.pngDecode with
      | some wh => .ok [imagePageFor item.id wh.1 wh.2]
      | none => .error ()
    else
      .ok []

/-- The whole `for` loop of `mergeFiles`: process the items in list
order, aborting on the first thrown error (the `try`/`catch` makes any
single failure abort the whole merge).  On success the result keeps each
item paired with the page group it contributed. -/
def mergeLoop :
    List FileWithMetadata → Except Unit (List (FileWithMetadata × List OutputPage))
  | [] => .ok []
  | f :: fs =>
    match processItem f, mergeLoop fs with
    | .ok ps, .ok rest => .ok ((f, ps) :: rest)
    | .error e, _ => .error e
    | _, .error e => .error e

/-- Flatten the per-item page groups into the page sequence of the
composite document, in order. -/
def flatPages : List (FileWithMetadata × List OutputPage) → List OutputPage
  | [] => []
  | g :: gs => g.2 ++ flatPages gs

/-- The pages of the document `mergeFiles` would serialize for a given
file list: `some` of the page sequence when every item processes without
error, `none` when the loop throws. -/
def mergeResultPages (fs : List FileWithMetadata) : Option (List OutputPage) :=
  match mergeLoop fs with
  | .ok gs => some (flatPages gs)
  | .error _ => none

/-- The component state the engine manipulates: the `files` list, the
`mergedPdfUrl` result slot (modelled as the page sequence of the
serialized document rather than an object URL), and the `error`
message slot. -/
structure AppState where
  files : List FileWithMetadata
  mergedPdfUrl : Option (List OutputPage)
  error : Option String
deriving DecidableEq

/-- The initial component state: no files, no merged result, no error. -/
def initState : AppState :=
  { files := [], mergedPdfUrl := none, error := none }

/-- `addFiles` from `App.tsx`: filter the incoming files, wrap them in
metadata, append them to the current list, stable-sort by timestamp,
set the skip message exactly when some incoming file was rejected, and
clear the merged result. -/
def addFiles (s : AppState) (newFiles : List (Nat × File)) : AppState :=
  let validFiles := (newFiles.filter (fun p => validUpload p.2)).map toMeta
  { files := sortByTimestamp (s.files ++ validFiles)
    mergedPdfUrl := none
    error :=
      if validFiles.length < newFiles.length then some skippedFilesMsg
      else none }

/-- `removeFile` from `App.tsx`: drop the file with the given id and
clear the merged result; the error slot is left untouched. -/
def removeFile (s : AppState) (i : Nat) : AppState :=
  { files := s.files.filter (fun f => f.id != i)
    mergedPdfUrl := none
    error := s.error }

/-- `mergeFiles` from `App.tsx`: an empty list returns immediately with
the state unchanged; otherwise the loop runs over the current files and
either the serialized result is stored with the error cleared
(`setError(null)` runs before the loop and success leaves it), or the
`catch` block stores the single generic error message, leaving
`mergedPdfUrl` untouched. -/
def mergeFiles (s : AppState) : AppState :=
  if s.files.length = 0 then s
  else
    match mergeLoop s.files with
    | .ok gs => { s with mergedPdfUrl := some (flatPages gs), error := none }
    | .error _ => { s with error := some mergeFailedMsg }

/-- The two image media types routed to `embedJpg` plus the one routed
to `embedPng`: exactly the image subtypes the merge loop handles instead
of skipping. -/
def handledImageType (t : String) : Bool :=
  t == "image/jpeg" || t == "image/jpg" || t == "image/png"

/-- Pages one item contributes to a successful merge: every parsed page
of a PDF item, one page for an image item of a handled subtype, zero
pages for an image item of any other subtype. -/
def itemPageCount (f : FileWithMetadata) : Nat :=
  match f.type with
  | .pdf => (f.file.bytes.pdfParse.getD []).length
  | .image => if handledImageType f.file.type then 1 else 0

/-- A supported item with malformed bytes: a PDF item whose bytes do not
parse, or an image item whose subtype is handled but whose pixel data
does not decode.  (An image item of an unhandled subtype is a skip, not
a malformed item.) -/
def isMalformedSupported (f : FileWithMetadata) : Bool :=
  match f.type with
  | .pdf => f.file.bytes.pdfParse.isNone
  | .image =>
    if f.file.type == "image/jpeg" || f.file.type == "image/jpg" then
      f.file.bytes.jpgDecode.isNone
    else if f.file.type == "image/png" then
      f.file.bytes.pngDecode.isNone
    else false

/-- Concrete fixture: a well-formed two-page PDF file. -/
def pdfFile : File :=
  { type := "application/pdf", lastModified := 50
    bytes := { pdfParse := some [0, 1], jpgDecode := none, pngDecode := none } }

/-- Concrete fixture: a GIF image — accepted by `addFiles`, but not a
subtype the merge loop embeds. -/
def gifFile : File :=
  { type := "image/gif", lastModified := 75
    bytes := { pdfParse := none, jpgDecode := none, pngDecode := none } }

/-- Concrete fixture: a file declared as PDF whose bytes do not parse. -/
def badPdfFile : File :=
  { type := "application/pdf", lastModified := 10
    bytes := { pdfParse := none, jpgDecode := none, pngDecode := none } }

/-- Concrete fixture: a decodable JPEG of native size 2 × 1. -/
def jpegFile : File :=
  { type := "image/jpeg", lastModified := 100
    bytes := { pdfParse := none, jpgDecode := some (2, 1), pngDecode := none } }

/-- Concrete fixture: a plain-text file, rejected by the `addFiles`
filter. -/
def txtFile : File :=
  { type := "text/plain", lastModified := 5
    bytes := { pdfParse := none, jpgDecode := none, pngDecode := none } }

/-- The `jpegFile` fixture wrapped in metadata with id 7. -/
def jpegMeta : FileWithMetadata := toMeta (7, jpegFile)

/-- One user-visible operation on the component state. -/
inductive Step : AppState → AppState → Prop
  | add (s : AppState) (newFiles : List (Nat × File)) :
      Step s (addFiles s newFiles)
  | remove (s : AppState) (i : Nat) : Step s (removeFile s i)
  | merge (s : AppState) : Step s (mergeFiles s)

/-- States reachable from the initial state by `addFiles`, `removeFile`
and `mergeFiles` operations. -/
inductive Reachable : AppState → Prop
  | init : Reachable initState
  | step {s s' : AppState} : Reachable s → Step s s' → Reachable s'

/-- Inserting into a list yields the same elements plus the new one. -/
theorem mem_insertByTimestamp (z x : FileWithMetadata) (l : List FileWithMetadata) :
    z ∈ insertByTimestamp x l ↔ z = x ∨ z ∈ l := by
  induction l with
  | nil => simp [insertByTimestamp]
  | cons y ys ih =>
    simp only [insertByTimestamp]
    split
    · simp only [List.mem_cons, ih]
      tauto
    · simp only [List.mem_cons]

/-- Insertion preserves sortedness by timestamp. -/
theorem pairwise_insertByTimestamp (x : FileWithMetadata) (l : List FileWithMetadata)
    (h : l.Pairwise (fun a b => a.timestamp ≤ b.timestamp)) :
    (insertByTimestamp x l).Pairwise (fun a b => a.timestamp ≤ b.timestamp) := by
  induction l with
  | nil => simp [insertByTimestamp]
  | cons y ys ih =>
    rcases List.pairwise_cons.mp h with ⟨hy, hys⟩
    simp only [insertByTimestamp]
    split
    · rename_i hlt
      refine List.pairwise_cons.mpr ⟨?_, ih hys⟩
      intro z hz
      rcases (mem_insertByTimestamp z x ys).mp hz with rfl | hz
      · exact le_of_lt hlt
      · exact hy z hz
    · rename_i hge
      refine List.pairwise_cons.mpr ⟨?_, h⟩
      intro z hz
      rcases List.mem_cons.mp hz with rfl | hz
      · exact not_lt.mp hge
      · exact le_trans (not_lt.mp hge) (hy z hz)

/-- The maintained sort produces a list sorted by timestamp ascending. -/
theorem sortByTimestamp_pairwise (l : List FileWithMetadata) :
    (sortByTimestamp l).Pairwise (fun a b => a.timestamp ≤ b.timestamp) := by
  induction l with
  | nil => simp [sortByTimestamp]
  | cons x xs ih => exact pairwise_insertByTimestamp x _ ih

/-- How insertion interacts with selecting one timestamp: the inserted
element lands in front of the existing elements of its own timestamp
(they all sit at or past the insertion point), and elements of other
timestamps are untouched. -/
theorem filter_insertByTimestamp (x : FileWithMetadata) (l : List FileWithMetadata)
    (t : Int) :
    (insertByTimestamp x l).filter (fun f => f.timestamp == t)
      = if x.timestamp = t
        then x :: l.filter (fun f => f.timestamp == t)
        else l.filter (fun f => f.timestamp == t) := by
  induction l with
  | nil =>
    by_cases hx : x.timestamp = t <;>
      simp [insertByTimestamp, List.filter_cons, hx]
  | cons y ys ih =>
    simp only [insertByTimestamp]
    split
    · rename_i hlt
      by_cases hx : x.timestamp = t
      · have hy : ¬ y.timestamp = t := by omega
        simp [List.filter_cons, hy, ih, hx]
      · simp [List.filter_cons, ih, hx]
    · by_cases hx : x.timestamp = t <;> simp [List.filter_cons, hx]

/-- Stability of the timestamp sort: for each timestamp value, the
subsequence of elements carrying that timestamp is exactly the one of
the unsorted list — equal timestamps keep their relative order. -/
theorem sortByTimestamp_filter (l : List FileWithMetadata) (t : Int) :
    (sortByTimestamp l).filter (fun f => f.timestamp == t)
      = l.filter (fun f => f.timestamp == t) := by
  induction l with
  | nil => rfl
  | cons x xs ih =>
    simp only [sortByTimestamp]
    rw [filter_insertByTimestamp]
    by_cases hx : x.timestamp = t <;> simp [List.filter_cons, hx, ih]

/-- A successful merge loop visits exactly the input items, in order:
the page groups are indexed by the file list itself. -/
theorem mergeLoop_map_fst (fs : List FileWithMetadata)
    (gs : List (FileWithMetadata × List OutputPage)) (h : mergeLoop fs = .ok gs) :
    gs.map Prod.fst = fs := by
  induction fs generalizing gs with
  | nil =>
    simp only [mergeLoop, Except.ok.injEq] at h
    subst h
    rfl
  | cons f fs ih =>
    simp only [mergeLoop] at h
    cases hp : processItem f with
    | error e => rw [hp] at h; simp at h
    | ok ps =>
      rw [hp] at h
      cases hr : mergeLoop fs with
      | error e => rw [hr] at h; simp at h
      | ok rest =>
        rw [hr] at h
        simp only [Except.ok.injEq] at h
        subst h
        simp [ih rest hr]

/-- Each page group of a successful merge loop is the output of
`processItem` on its item. -/
theorem mergeLoop_ok_mem (fs : List FileWithMetadata)
    (gs : List (FileWithMetadata × List OutputPage)) (h : mergeLoop fs = .ok gs)
    (g : FileWithMetadata × List OutputPage) (hg : g ∈ gs) :
    processItem g.1 = .ok g.2 := by
  induction fs generalizing gs with
  | nil =>
    simp only [mergeLoop, Except.ok.injEq] at h
    subst h
    cases hg
  | cons f fs ih =>
    simp only [mergeLoop] at h
    cases hp : processItem f with
    | error e => rw [hp] at h; simp at h
    | ok ps =>
      rw [hp] at h
      cases hr : mergeLoop fs with
      | error e => rw [hr] at h; simp at h
      | ok rest =>
        rw [hr] at h
        simp only [Except.ok.injEq] at h
        subst h
        rcases List.mem_cons.mp hg with rfl | hg
        · exact hp
        · exact ih rest hr hg

/-- If any item of the list throws, the whole loop throws: the first
failure aborts the merge. -/
theorem mergeLoop_error_of_mem (fs : List FileWithMetadata) (f : FileWithMetadata)
    (hf : f ∈ fs) (he : processItem f = .error ()) :
    mergeLoop fs = .error () := by
  induction fs with
  | nil => cases hf
  | cons g gs ih =>
    rcases List.mem_cons.mp hf with rfl | hf
    · simp only [mergeLoop, he]
    · simp only [mergeLoop]
      rw [ih hf]
      cases hp : processItem g with
      | error e => cases e; rfl
      | ok ps => rfl

/-- A page belongs to the flattened output iff it belongs to some
group. -/
theorem mem_flatPages (p : OutputPage)
    (gs : List (FileWithMetadata × List OutputPage)) :
    p ∈ flatPages gs ↔ ∃ g ∈ gs, p ∈ g.2 := by
  induction gs with
  | nil => simp [flatPages]
  | cons g gs ih => simp [flatPages, ih]

/-- The number of pages a successfully processed item contributes. -/
theorem processItem_length (f : FileWithMetadata) (ps : List OutputPage)
    (h : processItem f = .ok ps) : ps.length = itemPageCount f := by
  unfold processItem at h
  unfold itemPageCount
  cases htype : f.type with
  | pdf =>
    rw [htype] at h
    cases hp : f.file.bytes.pdfParse with
    | some pages =>
      rw [hp] at h
      simp only [Except.ok.injEq] at h
      subst h
      simp [hp]
    | none => rw [hp] at h; cases h
  | image =>
    rw [htype] at h
    by_cases h1 : (f.file.type == "image/jpeg" || f.file.type == "image/jpg") = true
    · rw [if_pos h1] at h
      cases hj : f.file.bytes.jpgDecode with
      | some wh =>
        rw [hj] at h
        simp only [Except.ok.injEq] at h
        subst h
        have : handledImageType f.file.type = true := by
          unfold handledImageType
          rcases Bool.or_eq_true_iff.mp h1 with h2 | h2 <;> simp [h2]
        simp [this]
      | none => rw [hj] at h; cases h
    · rw [if_neg h1] at h
      by_cases h2 : (f.file.type == "image/png") = true
      · rw [if_pos h2] at h
        cases hj : f.file.bytes.pngDecode with
        | some wh =>
          rw [hj] at h
          simp only [Except.ok.injEq] at h
          subst h
          have : handledImageType f.file.type = true := by
            unfold handledImageType
            simp [h2]
          simp [this]
        | none => rw [hj] at h; cases h
      · rw [if_neg h2] at h
        simp only [Except.ok.injEq] at h
        subst h
        have : handledImageType f.file.type = false := by
          unfold handledImageType
          simp only [Bool.or_eq_true_iff] at h1 ⊢
          push_neg at h1
          simp [h1.1, h1.2, h2]
        simp [this]

/-- Page count of a successful merge: the sum of the per-item page
contributions. -/
theorem flatPages_length_eq (fs : List FileWithMetadata)
    (gs : List (FileWithMetadata × List OutputPage)) (h : mergeLoop fs = .ok gs) :
    (flatPages gs).length = (fs.map itemPageCount).sum := by
  induction fs generalizing gs with
  | nil =>
    simp only [mergeLoop, Except.ok.injEq] at h
    subst h
    rfl
  | cons f fs ih =>
    simp only [mergeLoop] at h
    cases hp : processItem f with
    | error e => rw [hp] at h; simp at h
    | ok ps =>
      rw [hp] at h
      cases hr : mergeLoop fs with
      | error e => rw [hr] at h; simp at h
      | ok rest =>
        rw [hr] at h
        simp only [Except.ok.injEq] at h
        subst h
        simp [flatPages, List.length_append, processItem_length f ps hp, ih rest hr]

/-- An image item whose subtype is not one of the handled ones is
skipped by the loop body: it contributes the empty page group. -/
theorem processItem_skip (f : FileWithMetadata) (hk : f.type = FileKind.image)
    (hs : handledImageType f.file.type = false) : processItem f = .ok [] := by
  unfold handledImageType at hs
  simp only [Bool.or_eq_false_iff] at hs
  unfold processItem
  rw [hk]
  simp [hs.1.1, hs.1.2, hs.2]

/-- A supported item with malformed bytes makes the loop body throw. -/
theorem processItem_error_of_malformed (f : FileWithMetadata)
    (hm : isMalformedSupported f = true) : processItem f = .error () := by
  unfold isMalformedSupported at hm
  unfold processItem
  cases htype : f.type with
  | pdf =>
    rw [htype] at hm
    simp only [Option.isNone_iff_eq_none] at hm
    simp [hm]
  | image =>
    rw [htype] at hm
    simp only at hm
    by_cases h1 : (f.file.type == "image/jpeg" || f.file.type == "image/jpg") = true
    · rw [if_pos h1] at hm
      simp only [Option.isNone_iff_eq_none] at hm
      simp [h1, hm]
    · rw [if_neg h1] at hm
      by_cases h2 : (f.file.type == "image/png") = true
      · rw [if_pos h2] at hm
        simp only [Option.isNone_iff_eq_none] at hm
        simp [h1, h2, hm]
      · rw [if_neg h2] at hm
        cases hm

/-- Every page a processed item emits is either a page copied from the
source PDF of that item, or the image page the layout computes. -/
theorem processItem_pages_shape (f : FileWithMetadata) (ps : List OutputPage)
    (h : processItem f = .ok ps) (p : OutputPage) (hp : p ∈ ps) :
    (∃ c, p = OutputPage.copied f.id c) ∨ ∃ iw ih, p = imagePageFor f.id iw ih := by
  unfold processItem at h
  cases htype : f.type with
  | pdf =>
    rw [htype] at h
    cases hpp : f.file.bytes.pdfParse with
    | some pages =>
      rw [hpp] at h
      simp only [Except.ok.injEq] at h
      subst h
      rcases List.mem_map.mp hp with ⟨c, _, rfl⟩
      exact Or.inl ⟨c, rfl⟩
    | none => rw [hpp] at h; cases h
  | image =>
    rw [htype] at h
    by_cases h1 : (f.file.type == "image/jpeg" || f.file.type == "image/jpg") = true
    · rw [if_pos h1] at h
      cases hj : f.file.bytes.jpgDecode with
      | some wh =>
        rw [hj] at h
        simp only [Except.ok.injEq] at h
        subst h
        rcases List.mem_singleton.mp hp with rfl
        exact Or.inr ⟨wh.1, wh.2, rfl⟩
      | none => rw [hj] at h; cases h
    · rw [if_neg h1] at h
      by_cases h2 : (f.file.type == "image/png") = true
      · rw [if_pos h2] at h
        cases hj : f.file.bytes.pngDecode with
        | some wh =>
          rw [hj] at h
          simp only [Except.ok.injEq] at h
          subst h
          rcases List.mem_singleton.mp hp with rfl
          exact Or.inr ⟨wh.1, wh.2, rfl⟩
        | none => rw [hj] at h; cases h
      · rw [if_neg h2] at h
        simp only [Except.ok.injEq] at h
        subst h
        cases hp

/-- Unfolding of the merge result one item at a time. -/
theorem mergeResultPages_cons (g : FileWithMetadata) (rest : List FileWithMetadata) :
    mergeResultPages (g :: rest)
      = match processItem g, mergeResultPages rest with
        | .ok ps, some pages => some (ps ++ pages)
        | _, _ => none := by
  simp only [mergeResultPages, mergeLoop]
  cases processItem g with
  | error e => cases hr : mergeLoop rest <;> rfl
  | ok ps => cases hr : mergeLoop rest <;> simp [flatPages]

/-- Dropping a skipped item anywhere in the list leaves the merge result
unchanged: the remaining items still merge, to the same pages. -/
theorem mergeResultPages_skip (f : FileWithMetadata) (hf : processItem f = .ok [])
    (l1 l2 : List FileWithMetadata) :
    mergeResultPages (l1 ++ f :: l2) = mergeResultPages (l1 ++ l2) := by
  induction l1 with
  | nil =>
    simp only [List.nil_append]
    rw [mergeResultPages_cons, hf]
    cases mergeResultPages l2 <;> simp
  | cons g l1 ih =>
    simp only [List.cons_append]
    rw [mergeResultPages_cons, mergeResultPages_cons, ih]

/-- `mergeFiles` never changes the file list. -/
theorem mergeFiles_files (s : AppState) : (mergeFiles s).files = s.files := by
  unfold mergeFiles
  split
  · rfl
  · split <;> rfl

/-- Sortedness invariant: the file list of every reachable state is sorted
by timestamp in non-decreasing order. -/
theorem reachable_sorted (s : AppState) (h : Reachable s) :
    s.files.Pairwise (fun a b => a.timestamp ≤ b.timestamp) := by
  induction h with
  | init => simp [initState]
  | step _ hstep ih =>
    cases hstep with
    | add newFiles => exact sortByTimestamp_pairwise _
    | remove i => exact ih.filter _
    | merge => rw [mergeFiles_files]; exact ih

/-- Freshness invariant: whenever a reachable state exposes a merged
result, that result is exactly the merge of the current file list. -/
theorem reachable_merged (s : AppState) (h : Reachable s) :
    ∀ r, s.mergedPdfUrl = some r → mergeResultPages s.files = some r := by
  induction h with
  | init => intro r hr; simp [initState] at hr
  | step hr hstep ih =>
    rename_i s0 s1
    cases hstep with
    | add newFiles => intro r hr; simp [addFiles] at hr
    | remove i => intro r hr; simp [removeFile] at hr
    | merge =>
      intro r hr
      rw [mergeFiles_files]
      unfold mergeFiles at hr
      by_cases hlen : s0.files.length = 0
      · rw [if_pos hlen] at hr
        exact ih r hr
      · rw [if_neg hlen] at hr
        cases hml : mergeLoop s0.files with
        | ok gs =>
          rw [hml] at hr
          simp only [Option.some.injEq] at hr
          subst hr
          simp [mergeResultPages, hml]
        | error e =>
          rw [hml] at hr
          exact ih r hr

/-- Concrete evaluation of the image-page layout for a 2 × 1 image:
scale `min (572 / 2) (752 / 1) = 286`, placed size `572 × 286`,
position `(20, 253)`. -/
theorem imagePageFor_sample :
    imagePageFor 7 2 1 = OutputPage.imagePage 7 20 253 572 286 := by
  norm_num [imagePageFor, scaleToFit, pageWidth, pageHeight]

/-- Concrete evaluation of the merge loop on the 2 × 1 JPEG fixture. -/
theorem mergeLoop_sample :
    mergeLoop [jpegMeta] = .ok [(jpegMeta, [imagePageFor 7 2 1])] := rfl

/-- Unfolding of the file list produced by `addFiles`. -/
theorem addFiles_files (s : AppState) (newFiles : List (Nat × File)) :
    (addFiles s newFiles).files
      = sortByTimestamp
          (s.files ++ (newFiles.filter (fun p => validUpload p.2)).map toMeta) := rfl

end ChronoMerge

open ChronoMerge

/-- C1: for every reachable state whose file list contains a supported item with
malformed bytes (a PDF that does not parse, or a JPEG/PNG that does not decode),
`mergeFiles` surfaces its single failure message and exposes no output bytes at
all: the merged-result slot of the resulting state is `none`, so no partial
composite document is ever made available to the caller. -/
theorem c1_all_or_nothing (s : AppState) (f : FileWithMetadata)
    (hreach : Reachable s) (hf : f ∈ s.files) (hm : isMalformedSupported f = true) :
    (mergeFiles s).error = some mergeFailedMsg
    ∧ (mergeFiles s).mergedPdfUrl = none := by
  have hne : ¬ s.files.length = 0 := by
    cases hlist : s.files with
    | nil => rw [hlist] at hf; cases hf
    | cons a l => simp [hlist]
  have herr : mergeLoop s.files = .error () :=
    mergeLoop_error_of_mem s.files f hf (processItem_error_of_malformed f hm)
  have hmerged : s.mergedPdfUrl = none := by
    cases hmm : s.mergedPdfUrl with
    | none => rfl
    | some r =>
      have hc := reachable_merged s hreach r hmm
      unfold mergeResultPages at hc
      rw [herr] at hc
      simp at hc
  refine ⟨?_, ?_⟩ <;> simp [mergeFiles, hne, herr, hmerged]

/-- C1 witness: the concrete single-item list holding a malformed PDF. -/
theorem c1_witness :
    (mergeFiles (addFiles initState [(0, badPdfFile)])).error = some mergeFailedMsg
    ∧ (mergeFiles (addFiles initState [(0, badPdfFile)])).mergedPdfUrl = none :=
  c1_all_or_nothing (addFiles initState [(0, badPdfFile)]) (toMeta (0, badPdfFile))
    (Reachable.step Reachable.init (Step.add initState [(0, badPdfFile)]))
    (by decide) (by decide)

/-- C2: on every reachable state where the merge loop succeeds, the output page
groups are indexed by the file list in order and therefore appear in
non-decreasing timestamp order of their source items; the maintained order is
stable — after any `addFiles`, the items of any one timestamp are exactly the
previously held ones followed by the newly added ones, in their original
relative insertion order; and within a multi-page source PDF the original
internal page order is preserved in its output group. -/
theorem c2_chronological_order (s : AppState)
    (gs : List (FileWithMetadata × List OutputPage))
    (hreach : Reachable s) (hok : mergeLoop s.files = .ok gs) :
    gs.map Prod.fst = s.files
    ∧ gs.Pairwise (fun g1 g2 => g1.1.timestamp ≤ g2.1.timestamp)
    ∧ (∀ (newFiles : List (Nat × ChronoMerge.File)) (t : Int),
        (addFiles s newFiles).files.filter (fun f => f.timestamp == t)
          = s.files.filter (fun f => f.timestamp == t)
            ++ ((newFiles.filter (fun p => validUpload p.2)).map toMeta).filter
                (fun f => f.timestamp == t))
    ∧ (∀ g ∈ gs, ∀ pages, g.1.type = FileKind.pdf →
        g.1.file.bytes.pdfParse = some pages →
        g.2 = pages.map (fun c => OutputPage.copied g.1.id c)) := by
  have hfst := mergeLoop_map_fst s.files gs hok
  refine ⟨hfst, ?_, ?_, ?_⟩
  · have hsorted := reachable_sorted s hreach
    rw [← hfst] at hsorted
    exact List.Pairwise.of_map Prod.fst (fun a b hab => hab) hsorted
  · intro newFiles t
    rw [addFiles_files, sortByTimestamp_filter, List.filter_append]
  · intro g hg pages htype hparse
    have hpi := mergeLoop_ok_mem s.files gs hok g hg
    unfold processItem at hpi
    rw [htype] at hpi
    simp only at hpi
    rw [hparse] at hpi
    simp only [Except.ok.injEq] at hpi
    exact hpi.symm

/-- C2 witness: a reachable two-item state (a PDF stamped 50 and a GIF stamped
75) and its successful merge-loop output. -/
theorem c2_witness :
    ([(toMeta (1, pdfFile), [OutputPage.copied 1 0, OutputPage.copied 1 1]),
        (toMeta (0, gifFile), ([] : List OutputPage))].map Prod.fst
      = (addFiles initState [(0, gifFile), (1, pdfFile)]).files)
    ∧ ([(toMeta (1, pdfFile), [OutputPage.copied 1 0, OutputPage.copied 1 1]),
        (toMeta (0, gifFile), ([] : List OutputPage))].Pairwise
          (fun g1 g2 => g1.1.timestamp ≤ g2.1.timestamp))
    ∧ (∀ (newFiles : List (Nat × ChronoMerge.File)) (t : Int),
        (addFiles (addFiles initState [(0, gifFile), (1, pdfFile)]) newFiles).files.filter
            (fun f => f.timestamp == t)
          = (addFiles initState [(0, gifFile), (1, pdfFile)]).files.filter
              (fun f => f.timestamp == t)
            ++ ((newFiles.filter (fun p => validUpload p.2)).map toMeta).filter
                (fun f => f.timestamp == t))
    ∧ (∀ g ∈ [(toMeta (1, pdfFile), [OutputPage.copied 1 0, OutputPage.copied 1 1]),
        (toMeta (0, gifFile), ([] : List OutputPage))], ∀ pages,
        g.1.type = FileKind.pdf →
        g.1.file.bytes.pdfParse = some pages →
        g.2 = pages.map (fun c => OutputPage.copied g.1.id c)) :=
  c2_chronological_order (addFiles initState [(0, gifFile), (1, pdfFile)])
    [(toMeta (1, pdfFile), [OutputPage.copied 1 0, OutputPage.copied 1 1]),
      (toMeta (0, gifFile), ([] : List OutputPage))]
    (Reachable.step Reachable.init (Step.add initState [(0, gifFile), (1, pdfFile)]))
    rfl

/-- C3: whenever the merge loop succeeds, the total number of output pages is
the sum over all items of their page contribution — every page of each source
PDF, one page per handled (JPEG/PNG) image item, zero pages for an image item
of any other subtype. -/
theorem c3_page_count (fs : List FileWithMetadata)
    (gs : List (FileWithMetadata × List OutputPage)) (hok : mergeLoop fs = .ok gs) :
    (flatPages gs).length = (fs.map itemPageCount).sum :=
  flatPages_length_eq fs gs hok

/-- C3 witness: a two-page PDF plus a skipped GIF yield 2 + 0 pages. -/
theorem c3_witness :
    (flatPages [(toMeta (1, pdfFile), [OutputPage.copied 1 0, OutputPage.copied 1 1]),
        (toMeta (0, gifFile), ([] : List OutputPage))]).length
      = ([toMeta (1, pdfFile), toMeta (0, gifFile)].map itemPageCount).sum :=
  c3_page_count [toMeta (1, pdfFile), toMeta (0, gifFile)]
    [(toMeta (1, pdfFile), [OutputPage.copied 1 0, OutputPage.copied 1 1]),
      (toMeta (0, gifFile), ([] : List OutputPage))]
    rfl

/-- C4 counterexample: invoking the merge with an empty file list does not
return any failure — the state comes back unchanged, with `error = none`,
instead of an `EmptyInput` failure. -/
theorem c4_counterexample :
    mergeFiles initState = initState ∧ (mergeFiles initState).error = none := by
  constructor <;> decide

/-- C4 amended: invoking the merge with an empty file list is a silent no-op —
the component returns immediately, producing no output and reporting no
failure; the state is unchanged. -/
theorem c4_empty_is_noop (s : AppState) (h : s.files = []) : mergeFiles s = s := by
  simp [mergeFiles, h]

/-- C4 witness: the initial state has an empty file list. -/
theorem c4_witness : mergeFiles initState = initState :=
  c4_empty_is_noop initState rfl

/-- C5: an item classified as an image whose declared subtype is not one the
loop embeds (JPEG/JPG/PNG) is treated as a skip, not a fatal error: it
contributes the empty page group, and the merge of the remaining items produces
exactly the result it would produce without the item. -/
theorem c5_skip_unhandled_image (f : FileWithMetadata)
    (hk : f.type = FileKind.image) (hs : handledImageType f.file.type = false) :
    processItem f = .ok []
    ∧ ∀ l1 l2 : List FileWithMetadata,
        mergeResultPages (l1 ++ f :: l2) = mergeResultPages (l1 ++ l2) := by
  have h := processItem_skip f hk hs
  exact ⟨h, fun l1 l2 => mergeResultPages_skip f h l1 l2⟩

/-- C5 witness: the GIF fixture. -/
theorem c5_witness :
    processItem (toMeta (0, gifFile)) = .ok []
    ∧ ∀ l1 l2 : List FileWithMetadata,
        mergeResultPages (l1 ++ toMeta (0, gifFile) :: l2)
          = mergeResultPages (l1 ++ l2) :=
  c5_skip_unhandled_image (toMeta (0, gifFile)) (by decide) (by decide)

/-- C6: an image of positive native size `iw × ih` is placed with dimensions
`(iw * s, ih * s)` for the uniform scale
`s = min ((pageWidth - 40) / iw) ((pageHeight - 40) / ih)` — the page bounds
minus a 20-unit margin on each side — so the placed width/height ratio equals
`iw / ih` exactly. -/
theorem c6_scale_to_fit (srcId : Nat) (iw ih : ℚ) (hw : 0 < iw) (hh : 0 < ih) :
    scaleToFit iw ih (pageWidth - 40) (pageHeight - 40)
        = (iw * min ((pageWidth - 40) / iw) ((pageHeight - 40) / ih),
            ih * min ((pageWidth - 40) / iw) ((pageHeight - 40) / ih))
    ∧ (scaleToFit iw ih (pageWidth - 40) (pageHeight - 40)).1
        / (scaleToFit iw ih (pageWidth - 40) (pageHeight - 40)).2 = iw / ih
    ∧ imagePageFor srcId iw ih = OutputPage.imagePage srcId
        ((pageWidth - (scaleToFit iw ih (pageWidth - 40) (pageHeight - 40)).1) / 2)
        ((pageHeight - (scaleToFit iw ih (pageWidth - 40) (pageHeight - 40)).2) / 2)
        ((scaleToFit iw ih (pageWidth - 40) (pageHeight - 40)).1)
        ((scaleToFit iw ih (pageWidth - 40) (pageHeight - 40)).2) := by
  have hs : 0 < min ((pageWidth - 40) / iw) ((pageHeight - 40) / ih) := by
    have h1 : (0:ℚ) < pageWidth - 40 := by norm_num [pageWidth]
    have h2 : (0:ℚ) < pageHeight - 40 := by norm_num [pageHeight]
    exact lt_min (div_pos h1 hw) (div_pos h2 hh)
  refine ⟨rfl, ?_, rfl⟩
  show (iw * min ((pageWidth - 40) / iw) ((pageHeight - 40) / ih))
      / (ih * min ((pageWidth - 40) / iw) ((pageHeight - 40) / ih)) = iw / ih
  rw [mul_div_mul_right _ _ (ne_of_gt hs)]

/-- C6 witness: a 2 × 1 image. -/
theorem c6_witness :
    scaleToFit 2 1 (pageWidth - 40) (pageHeight - 40)
        = (2 * min ((pageWidth - 40) / 2) ((pageHeight - 40) / 1),
            1 * min ((pageWidth - 40) / 2) ((pageHeight - 40) / 1))
    ∧ (scaleToFit 2 1 (pageWidth - 40) (pageHeight - 40)).1
        / (scaleToFit 2 1 (pageWidth - 40) (pageHeight - 40)).2 = 2 / 1
    ∧ imagePageFor 9 2 1 = OutputPage.imagePage 9
        ((pageWidth - (scaleToFit 2 1 (pageWidth - 40) (pageHeight - 40)).1) / 2)
        ((pageHeight - (scaleToFit 2 1 (pageWidth - 40) (pageHeight - 40)).2) / 2)
        ((scaleToFit 2 1 (pageWidth - 40) (pageHeight - 40)).1)
        ((scaleToFit 2 1 (pageWidth - 40) (pageHeight - 40)).2) :=
  c6_scale_to_fit 9 2 1 (by decide) (by decide)

/-- C7: every image page of a successful merge output is centered: its left
margin equals the right margin and its top margin equals the bottom margin,
exactly (hence within the ±1 unit the claim allows). -/
theorem c7_centered (fs : List FileWithMetadata)
    (gs : List (FileWithMetadata × List OutputPage)) (hok : mergeLoop fs = .ok gs)
    (i : Nat) (x y w ht : ℚ)
    (hp : OutputPage.imagePage i x y w ht ∈ flatPages gs) :
    x = pageWidth - (x + w) ∧ y = pageHeight - (y + ht) := by
  rcases (mem_flatPages _ gs).mp hp with ⟨g, hg, hpg⟩
  have hpi := mergeLoop_ok_mem fs gs hok g hg
  rcases processItem_pages_shape g.1 g.2 hpi _ hpg with ⟨c, hc⟩ | ⟨iw, ihh, he⟩
  · cases hc
  · simp only [imagePageFor, OutputPage.imagePage.injEq] at he
    obtain ⟨hi, hx, hy, hw, hh⟩ := he
    subst hx
    subst hy
    subst hw
    subst hh
    constructor <;> ring

/-- C7 witness: the 2 × 1 JPEG fixture, placed at (20, 253) with size
572 × 286 on the 612 × 792 page. -/
theorem c7_witness :
    (20:ℚ) = pageWidth - (20 + 572) ∧ (253:ℚ) = pageHeight - (253 + 286) :=
  c7_centered [jpegMeta] [(jpegMeta, [imagePageFor 7 2 1])] mergeLoop_sample
    7 20 253 572 286 (by simp [flatPages, imagePageFor_sample])

/-- C8 counterexample: merging a list holding a GIF (skipped by the loop) and a
PDF completes with `error = none` and a merged result holding only the pages
of the PDF — the skipped image item is not reported to the caller in any way, not
as a count, a list, or a message. -/
theorem c8_counterexample :
    (mergeFiles (addFiles initState [(0, gifFile), (1, pdfFile)])).error = none
    ∧ (mergeFiles (addFiles initState [(0, gifFile), (1, pdfFile)])).mergedPdfUrl
        = some [OutputPage.copied 1 0, OutputPage.copied 1 1] := by
  constructor <;> decide

/-- C8 amended: files rejected at classification are surfaced only through the
single fixed message of `addFiles` (not a count or list of skipped items), and
image items skipped during the merge are not reported at all — a successful
merge always leaves `error = none` and stores only the assembled pages. -/
theorem c8_skip_reporting (s : AppState) (newFiles : List (Nat × ChronoMerge.File))
    (hskip : ((newFiles.filter (fun p => validUpload p.2)).map toMeta).length
        < newFiles.length) :
    (addFiles s newFiles).error = some skippedFilesMsg
    ∧ (∀ (s2 : AppState) (gs : List (FileWithMetadata × List OutputPage)),
        ¬ s2.files.length = 0 → mergeLoop s2.files = .ok gs →
        (mergeFiles s2).error = none
        ∧ (mergeFiles s2).mergedPdfUrl = some (flatPages gs)) := by
  constructor
  · simp only [addFiles]
    rw [if_pos hskip]
  · intro s2 gs hne hok
    refine ⟨?_, ?_⟩ <;> simp [mergeFiles, hne, hok]

/-- C8 witness: one rejected text file at classification time. -/
theorem c8_witness :
    (addFiles initState [(2, txtFile)]).error = some skippedFilesMsg
    ∧ (∀ (s2 : AppState) (gs : List (FileWithMetadata × List OutputPage)),
        ¬ s2.files.length = 0 → mergeLoop s2.files = .ok gs →
        (mergeFiles s2).error = none
        ∧ (mergeFiles s2).mergedPdfUrl = some (flatPages gs)) :=
  c8_skip_reporting initState [(2, txtFile)] (by decide)

/-- C9: the file list of every reachable state is sorted by timestamp in
non-decreasing order, and this sortedness is preserved by every mutation:
after any `addFiles` and after any `removeFile` the list is again sorted. -/
theorem c9_sorted_invariant (s : AppState) (newFiles : List (Nat × ChronoMerge.File))
    (i : Nat) (hreach : Reachable s) :
    s.files.Pairwise (fun a b => a.timestamp ≤ b.timestamp)
    ∧ (addFiles s newFiles).files.Pairwise (fun a b => a.timestamp ≤ b.timestamp)
    ∧ (removeFile s i).files.Pairwise (fun a b => a.timestamp ≤ b.timestamp) :=
  ⟨reachable_sorted s hreach, sortByTimestamp_pairwise _,
    (reachable_sorted s hreach).filter _⟩

/-- C9 witness: the two-item reachable state, one further `addFiles`, and one
`removeFile`. -/
theorem c9_witness :
    (addFiles initState [(0, gifFile), (1, pdfFile)]).files.Pairwise
        (fun a b => a.timestamp ≤ b.timestamp)
    ∧ (addFiles (addFiles initState [(0, gifFile), (1, pdfFile)])
          [(2, jpegFile)]).files.Pairwise (fun a b => a.timestamp ≤ b.timestamp)
    ∧ (removeFile (addFiles initState [(0, gifFile), (1, pdfFile)]) 1).files.Pairwise
        (fun a b => a.timestamp ≤ b.timestamp) :=
  c9_sorted_invariant (addFiles initState [(0, gifFile), (1, pdfFile)])
    [(2, jpegFile)] 1
    (Reachable.step Reachable.init (Step.add initState [(0, gifFile), (1, pdfFile)]))

/-- C10: every mutation of the file list clears the merged output —
`addFiles` and `removeFile` always leave `mergedPdfUrl = none` — and
consequently, whenever a reachable state exposes a merged result, that result
is exactly the merge of the current file list of the state: a merged result
produced from a different file list is never exposed. -/
theorem c10_merged_consistency (s : AppState) (hreach : Reachable s) :
    (∀ newFiles, (addFiles s newFiles).mergedPdfUrl = none)
    ∧ (∀ i, (removeFile s i).mergedPdfUrl = none)
    ∧ (∀ r, s.mergedPdfUrl = some r → mergeResultPages s.files = some r) :=
  ⟨fun _ => rfl, fun _ => rfl, reachable_merged s hreach⟩

/-- C10 witness: a reachable state that actually holds a merged result. -/
theorem c10_witness :
    (∀ newFiles,
        (addFiles (mergeFiles (addFiles initState [(1, pdfFile)]))
          newFiles).mergedPdfUrl = none)
    ∧ (∀ i, (removeFile (mergeFiles (addFiles initState [(1, pdfFile)]))
          i).mergedPdfUrl = none)
    ∧ (∀ r, (mergeFiles (addFiles initState [(1, pdfFile)])).mergedPdfUrl = some r →
        mergeResultPages (mergeFiles (addFiles initState [(1, pdfFile)])).files
          = some r) :=
  c10_merged_consistency (mergeFiles (addFiles initState [(1, pdfFile)]))
    (Reachable.step (Reachable.step Reachable.init (Step.add initState [(1, pdfFile)]))
      (Step.merge (addFiles initState [(1, pdfFile)])))
